import Mathlib

/-!
Verification development for `map_gen.py`: a script that converts GPX track
recordings into an interactive HTML map.  The Python source is shallowly
embedded below: pure computations become Lean functions over exact rationals,
the filesystem and environment become explicit association lists, exceptions
become `Except`, and the orchestration records its file-system side effects
as an explicit event trace.  Geometric distance computations that the source
delegates to the gpxpy library (haversine-style geodesic distances, which use
transcendental functions) are abstracted as rational-valued function
parameters; every claim proved here holds for all choices of those functions.
-/

/-- A timestamp as the fields that `strftime` with the source's
format string reads: year, month, day, hour, minute. -/
structure PyTime where
  year : Nat
  month : Nat
  day : Nat
  hour : Nat
  minute : Nat
deriving DecidableEq, Repr, Inhabited

/-- A GPX track point as gpxpy exposes it: latitude, longitude and
(optionally) elevation and a per-point timestamp.  Degrees are modelled
as exact rationals. -/
structure GpxPoint where
  latitude : ℚ
  longitude : ℚ
  elevation : Option ℚ
  time : Option PyTime
deriving DecidableEq, Repr, Inhabited

/-- One track segment: an ordered list of points. -/
structure GpxSegment where
  points : List GpxPoint
deriving DecidableEq, Repr, Inhabited

/-- One track: an ordered list of segments. -/
structure GpxTrack where
  segments : List GpxSegment
deriving DecidableEq, Repr, Inhabited

/-- A parsed GPX document: an ordered list of tracks. -/
structure Gpx where
  tracks : List GpxTrack
deriving DecidableEq, Repr, Inhabited

/-- The `\x7b'lat': ..., 'lng': ...\x7d` dictionary `parse_gpx` emits per point. -/
structure Coord where
  lat : ℚ
  lng : ℚ
deriving DecidableEq, Repr, Inhabited

/-- A parsed style document.  The program never inspects style contents
(it only forwards them to the template), so the document is modelled as an
opaque payload. -/
structure StyleDoc where
  payload : String
deriving DecidableEq, Repr, Inhabited

/-- Contents of a file in the modelled filesystem: a recording that gpxpy
parses to `g`, a JSON document that `json.load` parses to `j`, or content on
which the relevant parser raises. -/
inductive FileContent
  | gpxData (g : Gpx)
  | jsonData (j : StyleDoc)
  | malformed
deriving DecidableEq, Repr, Inhabited

/-- The filesystem: an association list from file name to content. -/
abbrev FS := List (String × FileContent)

/-- One route catalog entry: the value stored under a filename key by
`load_all_gpx_files` and `generate_map`. -/
structure RouteData where
  coords : List Coord
  distance : ℚ
  date : String
deriving DecidableEq, Repr, Inhabited

/-- The named values `generate_map` passes to `template.render`. -/
structure RenderContext where
  api_key : String
  route_coords : List Coord
  all_styles : List (String × StyleDoc)
  style_names : List String
  default_style : String
  total_distance_km : ℚ
  start_time : String
  all_routes : List (String × RouteData)
  default_route : String
deriving DecidableEq, Repr, Inhabited

/-- The process environment (after `load_dotenv`), the filesystem, and the
set of template names the Jinja loader can resolve. -/
structure World where
  env : List (String × String)
  fs : FS
  templates : List String
deriving DecidableEq, Repr, Inhabited

/-- Parsed command-line arguments of the script. -/
structure Args where
  gpx_file : Option String
  output : String
  routes_dir : String
deriving DecidableEq, Repr, Inhabited

/-- Observable file-system actions of a run: opening a file for reading,
globbing a directory pattern, and writing the rendered output (the written
document is represented by the render context it was produced from). -/
inductive Event
  | readFile (path : String)
  | listDir (pattern : String)
  | writeFile (path : String) (ctx : RenderContext)
deriving DecidableEq, Repr

/-- Outcome of running a Python function that may end in an uncaught
exception. -/
inductive PyResult (α : Type)
  | ok (a : α)
  | exn (msg : String)
deriving DecidableEq, Repr

/-! ## Small helpers: paths, formatting, dictionaries, sorting, glob -/

/-- Zero-pad a natural number to two digits (`strftime` field). -/
def pad2 (n : Nat) : String :=
  if n < 10 then "0" ++ toString n else toString n

/-- Zero-pad a year to four digits (`strftime` %Y). -/
def pad4 (n : Nat) : String :=
  if n < 10 then "000" ++ toString n
  else if n < 100 then "00" ++ toString n
  else if n < 1000 then "0" ++ toString n
  else toString n

/-- `strftime("%Y-%m-%d %H:%M")` on the modelled timestamp. -/
def PyTime.strftimeDateHM (t : PyTime) : String :=
  pad4 t.year ++ "-" ++ pad2 t.month ++ "-" ++ pad2 t.day ++ " " ++
    pad2 t.hour ++ ":" ++ pad2 t.minute

/-- Split a character list at every occurrence of `sep` (the semantics of
Python `str.split` with a one-character separator, and of `String.splitOn`;
structural recursion so that concrete runs compute). -/
def splitOnChar (sep : Char) : List Char → List (List Char)
  | [] => [[]]
  | c :: rest =>
      match splitOnChar sep rest with
      | [] => if c == sep then [[], []] else [[c]]
      | h :: t => if c == sep then [] :: h :: t else (c :: h) :: t

/-- Boolean prefix test on character lists. -/
def isPrefixChars : List Char → List Char → Bool
  | [], _ => true
  | _ :: _, [] => false
  | a :: as2, b :: bs => a == b && isPrefixChars as2 bs

/-- `os.path.basename`: the part after the last slash. -/
def basename (p : String) : String :=
  ⟨(splitOnChar '/' p.data).getLastD p.data⟩

/-- The stem of `os.path.splitext`: drop the extension that starts at the
last dot, unless every character before that dot is itself a dot (leading
dots do not start an extension). -/
def splitextStem (s : String) : String :=
  let cs := s.data
  match (cs.enum.filter (fun p => p.2 == '.')).getLast? with
  | none => s
  | some (i, _) =>
      if (cs.take i).any (fun c => c != '.') then ⟨cs.take i⟩ else s

/-- `os.getenv`: first binding of the variable in the environment. -/
def getenv (w : World) (k : String) : Option String :=
  ((w.env.find? (fun p => p.1 == k)).map Prod.snd)

/-- Name lookup in the modelled filesystem. -/
def lookupFS (fs : FS) (name : String) : Option FileContent :=
  ((fs.find? (fun p => p.1 == name)).map Prod.snd)

/-- `glob.glob` restricted to the patterns the script uses: a literal
prefix, one `*` (which does not match a slash), and a literal suffix. -/
def globMatch (pat name : String) : Bool :=
  match splitOnChar '*' pat.data with
  | [p] => name.data == p
  | [pre, suf] =>
      isPrefixChars pre name.data &&
      isPrefixChars suf.reverse name.data.reverse &&
      decide (pre.length + suf.length ≤ name.data.length) &&
      !((name.data.drop pre.length).take
          (name.data.length - pre.length - suf.length)).any (fun c => c == '/')
  | _ => false

/-- The names in the filesystem matching a glob pattern (directory-scan
order; the script always sorts the result before using it). -/
def glob (fs : FS) (pat : String) : List String :=
  (fs.map Prod.fst).filter (globMatch pat)

/-- Python's `sorted` on strings. -/
def sortStr (l : List String) : List String :=
  List.insertionSort (fun a b : String => a ≤ b) l

/-- Key membership test of a Python dict modelled as an association list. -/
def dictContains (d : List (String × α)) (k : String) : Bool :=
  d.any (fun p => p.1 == k)

/-- `d[k] = v` on a Python dict: update in place if the key exists
(keeping its position), otherwise append the new binding. -/
def dictInsert (d : List (String × α)) (k : String) (v : α) :
    List (String × α) :=
  if dictContains d k then d.map (fun p => if p.1 == k then (k, v) else p)
  else d ++ [(k, v)]

/-- `d.get(k)` on a Python dict. -/
def dictGet? (d : List (String × α)) (k : String) : Option α :=
  ((d.find? (fun p => p.1 == k)).map Prod.snd)

/-! ## Ramer-Douglas-Peucker simplification (gpxpy `simplify_polyline`)

gpxpy computes, for each interior point, an approximate distance from the
line through the first and last points via line-equation coefficients (exact
rational arithmetic), picks the first interior point attaining the maximum,
then measures that point's true geodesic distance from the line.  The
geodesic distance uses square roots, so it is abstracted here as the
function parameter `dLine`; the claims below hold for every `dLine`. -/

/-- gpxpy `get_line_equation_coefficients`. -/
def get_line_equation_coefficients (l1 l2 : GpxPoint) : ℚ × ℚ × ℚ :=
  if l1.longitude = l2.longitude then
    (0, 1, -l1.longitude)
  else
    let a := (l1.latitude - l2.latitude) / (l1.longitude - l2.longitude)
    let b := l1.latitude - l1.longitude * a
    (1, -a, -b)

/-- `abs(a * lat + b * lng + c)` for the coefficients of the line through
`pB` and `pE`. -/
def lineAbsDist (pB pE p : GpxPoint) : ℚ :=
  let abc := get_line_equation_coefficients pB pE
  |abc.1 * p.latitude + abc.2.1 * p.longitude + abc.2.2|

/-- `points[1:-1]`. -/
def interiorOf (points : List GpxPoint) : List GpxPoint :=
  (points.drop 1).dropLast

/-- The running-maximum scan of the source: starting from best value
`best` at index `bestIdx`, scanning the remaining values from index `idx`,
return the index of the first strict maximum. -/
def argmaxFrom (best : ℚ) (bestIdx idx : Nat) : List ℚ → Nat
  | [] => bestIdx
  | v :: rest =>
      if best < v then argmaxFrom v idx (idx + 1) rest
      else argmaxFrom best bestIdx (idx + 1) rest

/-- Index (into `points[1:-1]`) of the interior point the source recurses
on: the first maximum of the line-coefficient distances, scanned with
initial best `-1000000`. -/
def splitIdx (points : List GpxPoint) : Nat :=
  argmaxFrom (-1000000) 0 0
    ((interiorOf points).map
      (lineAbsDist (points.headD default) (points.getLastD default)))

/-- gpxpy `simplify_polyline` with explicit recursion fuel.  Each recursive
call is on a strictly shorter list, so fuel `points.length` (as used by
`simplify_polyline`) always suffices; `simplify_polyline_go_fuel` below
proves fuel-irrelevance. -/
def simplify_polyline_go (dLine : GpxPoint → GpxPoint → GpxPoint → ℚ)
    (maxD : ℚ) : Nat → List GpxPoint → List GpxPoint
  | 0, points => points
  | fuel + 1, points =>
      if points.length < 3 then points
      else
        let pBegin := points.headD default
        let pEnd := points.getLastD default
        let i := splitIdx points
        if dLine (points.getD (i + 1) default) pBegin pEnd < maxD then
          [pBegin, pEnd]
        else
          simplify_polyline_go dLine maxD fuel (points.take (i + 2)) ++
            (simplify_polyline_go dLine maxD fuel (points.drop (i + 1))).drop 1

/-- gpxpy `simplify_polyline points max_distance`. -/
def simplify_polyline (dLine : GpxPoint → GpxPoint → GpxPoint → ℚ)
    (maxD : ℚ) (points : List GpxPoint) : List GpxPoint :=
  simplify_polyline_go dLine maxD points.length points

/-- `track.simplify(max_distance)`: simplify each segment's point list. -/
def trackSimplify (dLine : GpxPoint → GpxPoint → GpxPoint → ℚ) (maxD : ℚ)
    (t : GpxTrack) : GpxTrack :=
  ⟨t.segments.map (fun s => ⟨simplify_polyline dLine maxD s.points⟩)⟩

/-- The simplification loop of `parse_gpx`: `for track in gpx.tracks:
track.simplify(max_distance=...)`. -/
def gpxSimplify (dLine : GpxPoint → GpxPoint → GpxPoint → ℚ) (maxD : ℚ)
    (g : Gpx) : Gpx :=
  ⟨g.tracks.map (trackSimplify dLine maxD)⟩

/-! ## Track statistics (gpxpy `length_2d`, `get_time_bounds`) -/

/-- Sum of the pairwise distances between consecutive points.  The 2D
point-to-point geodesic distance (haversine) is abstracted as `d2`. -/
def pairDistSum (d2 : GpxPoint → GpxPoint → ℚ) : List GpxPoint → ℚ
  | a :: b :: rest => d2 a b + pairDistSum d2 (b :: rest)
  | _ => 0

/-- `segment.length_2d()`. -/
def GpxSegment.length_2d (d2 : GpxPoint → GpxPoint → ℚ) (s : GpxSegment) : ℚ :=
  pairDistSum d2 s.points

/-- `track.length_2d()`: sum over segments. -/
def GpxTrack.length_2d (d2 : GpxPoint → GpxPoint → ℚ) (t : GpxTrack) : ℚ :=
  (t.segments.map (GpxSegment.length_2d d2)).sum

/-- `gpx.length_2d()`: sum over tracks. -/
def Gpx.length_2d (d2 : GpxPoint → GpxPoint → ℚ) (g : Gpx) : ℚ :=
  (g.tracks.map (GpxTrack.length_2d d2)).sum

/-- Start of `segment.get_time_bounds()`: the first point (in order) that
carries a timestamp. -/
def GpxSegment.startTime (s : GpxSegment) : Option PyTime :=
  s.points.findSome? (fun p => p.time)

/-- Start of `track.get_time_bounds()`: first segment start found. -/
def GpxTrack.startTime (t : GpxTrack) : Option PyTime :=
  t.segments.findSome? GpxSegment.startTime

/-- Start of `gpx.get_time_bounds()`: first track start found (the first
timestamp of the recording in document order). -/
def Gpx.startTime (g : Gpx) : Option PyTime :=
  g.tracks.findSome? GpxTrack.startTime

/-- Python `round(x, 2)` modelled over exact rationals. -/
def round2 (q : ℚ) : ℚ :=
  ((round (q * 100) : ℤ) : ℚ) / 100

/-! ## Track Loader (`parse_gpx`) -/

/-- Reduce a point to the `\x7b'lat', 'lng'\x7d` pair appended by the
flattening loop (elevation and per-point time are discarded). -/
def projCoord (p : GpxPoint) : Coord :=
  ⟨p.latitude, p.longitude⟩

/-- All points of a recording flattened in document order (before
simplification). -/
def allPoints (g : Gpx) : List GpxPoint :=
  g.tracks.flatMap (fun t => t.segments.flatMap (fun s => s.points))

/-- `open(filename)` followed by `gpxpy.parse`: fails when the file is
missing or its content is not a recording gpxpy accepts. -/
def readGpx (fs : FS) (filename : String) : Except String Gpx :=
  match lookupFS fs filename with
  | some (FileContent.gpxData g) => Except.ok g
  | some _ => Except.error ("gpxpy could not parse " ++ filename)
  | none => Except.error ("No such file: " ++ filename)

/-- The body of `parse_gpx`'s `try` block: parse, simplify each track with
max error 10 meters, flatten to lat/lng pairs, compute rounded kilometres
and the formatted start time (`"N/A"` when the recording has no
timestamp). -/
def parseGpxBody (dLine : GpxPoint → GpxPoint → GpxPoint → ℚ)
    (d2 : GpxPoint → GpxPoint → ℚ) (fs : FS) (filename : String) :
    Except String (List Coord × ℚ × String) :=
  match readGpx fs filename with
  | Except.error e => Except.error e
  | Except.ok gpx0 =>
      let gpx := gpxSimplify dLine 10 gpx0
      let points := gpx.tracks.flatMap
        (fun t => t.segments.flatMap (fun s => s.points.map projCoord))
      let total_dist := round2 (Gpx.length_2d d2 gpx / 1000)
      let date_str :=
        match Gpx.startTime gpx with
        | some t => t.strftimeDateHM
        | none => "N/A"
      Except.ok (points, total_dist, date_str)

/-- `parse_gpx`: the try body with its `except` clause, which converts any
failure into the sentinel `([], 0, "")` instead of propagating it. -/
def parse_gpx (dLine : GpxPoint → GpxPoint → GpxPoint → ℚ)
    (d2 : GpxPoint → GpxPoint → ℚ) (fs : FS) (filename : String) :
    List Coord × ℚ × String :=
  match parseGpxBody dLine d2 fs filename with
  | Except.ok r => r
  | Except.error _ => ([], 0, "")

/-! ## Style Loader (`load_styles`) -/

/-- `load_styles`: glob the pattern, traverse the matches sorted, parse each
as JSON under its extension-stripped base name; a file whose lookup or parse
fails is skipped without aborting the loop. -/
def load_styles (fs : FS) (pattern : String) : List (String × StyleDoc) :=
  (sortStr (glob fs pattern)).foldl
    (fun styles style_file =>
      match lookupFS fs style_file with
      | some (FileContent.jsonData j) =>
          dictInsert styles (splitextStem (basename style_file)) j
      | _ => styles)
    []

/-- The style name `generate_map` would fall back on, written from the
spec's words: the first style name in the loader's sorted enumeration order
among the files that parse successfully, if any. -/
def firstLoadedStyleName (fs : FS) (pattern : String) : Option String :=
  (sortStr (glob fs pattern)).findSome?
    (fun f =>
      match lookupFS fs f with
      | some (FileContent.jsonData _) => some (splitextStem (basename f))
      | _ => none)

/-! ## Route Catalog Builder (`load_all_gpx_files` and the primary insert) -/

/-- `load_all_gpx_files`: glob `routes_dir/*.gpx`, traverse sorted, load
each recording with the Track Loader and keep it under its base filename
when it yields a nonempty coordinate list. -/
def load_all_gpx_files (dLine : GpxPoint → GpxPoint → GpxPoint → ℚ)
    (d2 : GpxPoint → GpxPoint → ℚ) (fs : FS) (routes_dir : String) :
    List (String × RouteData) :=
  (sortStr (glob fs (routes_dir ++ "/*.gpx"))).foldl
    (fun routes gpx_file =>
      let r := parse_gpx dLine d2 fs gpx_file
      if r.1 ≠ [] then
        dictInsert routes (basename gpx_file) ⟨r.1, r.2.1, r.2.2⟩
      else routes)
    []

/-- Steps 2 of `generate_map`: the catalog from the directory scan, with
the primary route's data inserted under its base filename when the scan did
not already produce that key. -/
def buildCatalog (dLine : GpxPoint → GpxPoint → GpxPoint → ℚ)
    (d2 : GpxPoint → GpxPoint → ℚ) (fs : FS)
    (gpx_path routes_dir : String) (primary : RouteData) :
    List (String × RouteData) :=
  let all_routes := load_all_gpx_files dLine d2 fs routes_dir
  let primary_filename := basename gpx_path
  if dictContains all_routes primary_filename then all_routes
  else dictInsert all_routes primary_filename primary

/-! ## Orchestration (`generate_map` and `__main__`) -/

/-- The file-system actions of `load_all_gpx_files`: one directory scan,
then one read per matched file in sorted order. -/
def load_all_gpx_files_events (fs : FS) (routes_dir : String) : List Event :=
  Event.listDir (routes_dir ++ "/*.gpx") ::
    (sortStr (glob fs (routes_dir ++ "/*.gpx"))).map Event.readFile

/-- The file-system actions of `load_styles`. -/
def load_styles_events (fs : FS) (pattern : String) : List Event :=
  Event.listDir pattern ::
    (sortStr (glob fs pattern)).map Event.readFile

/-- `generate_map`: check the credential (Python truthiness: absent or
empty raises `ValueError`), load the primary recording, return silently on
the empty sentinel, build the catalog, load the styles, pick the default
style name, resolve the template (a missing template raises), render and
write the output.  Paired with the ordered trace of file-system actions. -/
def generate_map (dLine : GpxPoint → GpxPoint → GpxPoint → ℚ)
    (d2 : GpxPoint → GpxPoint → ℚ) (w : World)
    (gpx_path output_path style_pattern template_file routes_dir : String) :
    PyResult Unit × List Event :=
  match getenv w "GOOGLE_MAPS_API_KEY" with
  | none => (PyResult.exn "Missing GOOGLE_MAPS_API_KEY in .env", [])
  | some api_key =>
      if api_key = "" then
        (PyResult.exn "Missing GOOGLE_MAPS_API_KEY in .env", [])
      else
        let r := parse_gpx dLine d2 w.fs gpx_path
        let ev1 := [Event.readFile gpx_path]
        if r.1 = [] then (PyResult.ok (), ev1)
        else
          let all_routes :=
            buildCatalog dLine d2 w.fs gpx_path routes_dir ⟨r.1, r.2.1, r.2.2⟩
          let ev2 := ev1 ++ load_all_gpx_files_events w.fs routes_dir
          let primary_filename := basename gpx_path
          let styles := load_styles w.fs style_pattern
          let ev3 := ev2 ++ load_styles_events w.fs style_pattern
          let default_style :=
            match styles.head? with
            | some p => p.1
            | none => "default"
          if w.templates.contains template_file then
            (PyResult.ok (),
              ev3 ++ [Event.writeFile output_path
                ⟨api_key, r.1, styles, styles.map Prod.fst, default_style,
                  r.2.1, r.2.2, all_routes, primary_filename⟩])
          else (PyResult.exn "TemplateNotFound", ev3)

/-- Exit status of the process when the call returns or raises uncaught. -/
def exitCodeOf : PyResult Unit → Nat
  | PyResult.ok _ => 0
  | PyResult.exn _ => 1

/-- The `__main__` block: take the explicit recording path if given,
otherwise glob the routes directory and take the alphabetically first
match, exiting 1 when there is none; then run `generate_map` with the
hard-coded style pattern and template name. -/
def mainRun (dLine : GpxPoint → GpxPoint → GpxPoint → ℚ)
    (d2 : GpxPoint → GpxPoint → ℚ) (w : World) (args : Args) :
    Nat × List Event :=
  match args.gpx_file with
  | some g =>
      let r := generate_map dLine d2 w g args.output "styles/*.json"
        "template.html" args.routes_dir
      (exitCodeOf r.1, r.2)
  | none =>
      let pat := args.routes_dir ++ "/*.gpx"
      let gpx_files := glob w.fs pat
      if gpx_files = [] then (1, [Event.listDir pat])
      else
        let g := (sortStr gpx_files).headD ""
        let r := generate_map dLine d2 w g args.output "styles/*.json"
          "template.html" args.routes_dir
        (exitCodeOf r.1, Event.listDir pat :: r.2)

/-- The context payload of a write event, `none` for the other events. -/
def writeEvent? : Event → Option RenderContext
  | Event.writeFile _ ctx => some ctx
  | _ => none

/-- The render context written by a run, if any: the payload of the first
write event of the trace. -/
def writtenCtx (r : PyResult Unit × List Event) : Option RenderContext :=
  r.2.findSome? writeEvent?

/-- Shared concrete stand-ins for the abstracted geodesic distance
functions, used by the concrete evaluations below. -/
def dLine0 : GpxPoint → GpxPoint → GpxPoint → ℚ := fun _ _ _ => 0

/-- Concrete stand-in for the pairwise 2D distance. -/
def d20 : GpxPoint → GpxPoint → ℚ := fun _ _ => 0

/-! ## Lemmas about the simplification recursion -/

/-- `lineAbsDist` is an absolute value, hence nonnegative. -/
lemma lineAbsDist_nonneg (pB pE p : GpxPoint) : 0 ≤ lineAbsDist pB pE p :=
  abs_nonneg _

/-- The running-maximum scan returns either its incoming best index or the
position (counted from `idx`) of some scanned value. -/
lemma argmaxFrom_eq_or (vals : List ℚ) :
    ∀ (best : ℚ) (bestIdx idx : Nat),
      argmaxFrom best bestIdx idx vals = bestIdx ∨
      ∃ j, j < vals.length ∧ argmaxFrom best bestIdx idx vals = idx + j := by
  induction vals with
  | nil => intro best bestIdx idx; left; rfl
  | cons v rest ih =>
      intro best bestIdx idx
      by_cases h : best < v
      · rcases ih v idx (idx + 1) with h1 | ⟨j, hj, h2⟩
        · right
          refine ⟨0, by simp, ?_⟩
          simp [argmaxFrom, h, h1]
        · right
          refine ⟨j + 1, by simp; omega, ?_⟩
          simp [argmaxFrom, h, h2]
          omega
      · rcases ih best bestIdx (idx + 1) with h1 | ⟨j, hj, h2⟩
        · left
          simp [argmaxFrom, h, h1]
        · right
          refine ⟨j + 1, by simp; omega, ?_⟩
          simp [argmaxFrom, h, h2]
          omega

/-- On a nonempty value list whose head beats the initial best, the scan
returns a position inside the list. -/
lemma argmaxFrom_lt_length (v : ℚ) (rest : List ℚ) (hv : -1000000 < v) :
    argmaxFrom (-1000000) 0 0 (v :: rest) < (v :: rest).length := by
  have hstep : argmaxFrom (-1000000) 0 0 (v :: rest) = argmaxFrom v 0 1 rest := by
    simp [argmaxFrom, hv]
  rw [hstep]
  rcases argmaxFrom_eq_or rest v 0 1 with h | ⟨j, hj, h⟩
  · rw [h]; simp
  · rw [h]; simp; omega

/-- `points[1:-1]` has two fewer elements. -/
lemma interiorOf_length (points : List GpxPoint) :
    (interiorOf points).length = points.length - 2 := by
  simp [interiorOf]
  omega

/-- The index the source recurses on addresses an interior point: it is
strictly below `length - 2`. -/
lemma splitIdx_lt (points : List GpxPoint) (h3 : 3 ≤ points.length) :
    splitIdx points < points.length - 2 := by
  unfold splitIdx
  have hlen : ((interiorOf points).map
      (lineAbsDist (points.headD default) (points.getLastD default))).length =
      points.length - 2 := by
    simp [interiorOf_length]
  cases hi : (interiorOf points).map
      (lineAbsDist (points.headD default) (points.getLastD default)) with
  | nil => rw [hi] at hlen; simp at hlen; omega
  | cons v rest =>
      have hv : -1000000 < v := by
        have hmem : v ∈ (interiorOf points).map
            (lineAbsDist (points.headD default) (points.getLastD default)) := by
          rw [hi]; exact List.mem_cons_self v rest
        rcases List.mem_map.mp hmem with ⟨p, _, hp⟩
        have := lineAbsDist_nonneg (points.headD default)
          (points.getLastD default) p
        rw [hp] at this
        linarith
      have hlt := argmaxFrom_lt_length v rest hv
      rw [← hlen, hi]
      exact hlt

/-- The last element (with default) of a nonempty list is a member. -/
lemma getLastD_mem {α : Type} (l : List α) (d : α) (h : l ≠ []) :
    l.getLastD d ∈ l := by
  rw [List.getLastD_eq_getLast?, List.getLast?_eq_getLast l h]
  simp [List.getLast_mem]

/-- `[first, last]` is an order-preserving subsequence of any list with at
least two elements. -/
lemma sublist_head_last (points : List GpxPoint) (h : 2 ≤ points.length) :
    [points.headD default, points.getLastD default].Sublist points := by
  match points with
  | a :: b :: rest =>
      have hne : (b :: rest) ≠ [] := by simp
      have h1 : (a :: b :: rest).getLastD default = (b :: rest).getLast hne := by
        rw [List.getLastD_eq_getLast?, List.getLast?_eq_getLast _ (by simp),
          List.getLast_cons hne]
        simp
      have hmem : (a :: b :: rest).getLastD default ∈ b :: rest := by
        rw [h1]
        exact List.getLast_mem hne
      have htail : [(a :: b :: rest).getLastD default].Sublist (b :: rest) :=
        List.singleton_sublist.mpr hmem
      simpa [List.headD] using List.Sublist.cons₂ a htail

/-- Dropping a sublist's first element keeps it a sublist of the longer
list's tail. -/
lemma tail_sublist_cons {α : Type} {B : List α} {x : α} {L : List α}
    (h : B.Sublist (x :: L)) : (B.drop 1).Sublist L := by
  cases B with
  | nil => simp
  | cons b Btl =>
      simp only [List.drop_one, List.tail_cons]
      cases h with
      | cons y hy => exact (List.sublist_cons_self b Btl).trans hy
      | cons₂ y hy => exact hy

/-- The fueled simplification always returns an order-preserving
subsequence of its input. -/
lemma simplify_polyline_go_sublist
    (dLine : GpxPoint → GpxPoint → GpxPoint → ℚ) (maxD : ℚ) :
    ∀ (fuel : Nat) (points : List GpxPoint),
      (simplify_polyline_go dLine maxD fuel points).Sublist points := by
  intro fuel
  induction fuel with
  | zero => intro points; simp [simplify_polyline_go]
  | succ fuel ih =>
      intro points
      rw [simplify_polyline_go]
      by_cases h3 : points.length < 3
      · simp only [if_pos h3]
        exact List.Sublist.refl points
      · simp only [if_neg h3]
        by_cases hd : dLine (points.getD (splitIdx points + 1) default)
            (points.headD default) (points.getLastD default) < maxD
        · simp only [if_pos hd]
          exact sublist_head_last points (by omega)
        · simp only [if_neg hd]
          have hi : splitIdx points + 1 < points.length := by
            have := splitIdx_lt points (by omega)
            omega
          have h1 := ih (points.take (splitIdx points + 2))
          have h2 := ih (points.drop (splitIdx points + 1))
          have hsplit : points.drop (splitIdx points + 1) =
              points[splitIdx points + 1] :: points.drop (splitIdx points + 2) :=
            List.drop_eq_getElem_cons hi
          have h2b : (simplify_polyline_go dLine maxD fuel
              (points.drop (splitIdx points + 1))).Sublist
              (points[splitIdx points + 1] :: points.drop (splitIdx points + 2)) := by
            rw [← hsplit]
            exact h2
          have h2d := tail_sublist_cons h2b
          have hall := List.Sublist.append h1 h2d
          rw [List.take_append_drop] at hall
          exact hall

/-- `simplify_polyline` returns an order-preserving subsequence of its
input point list: every kept point is an original point, in the original
order. -/
lemma simplify_polyline_sublist
    (dLine : GpxPoint → GpxPoint → GpxPoint → ℚ) (maxD : ℚ)
    (points : List GpxPoint) :
    (simplify_polyline dLine maxD points).Sublist points :=
  simplify_polyline_go_sublist dLine maxD points.length points

/-- Lists of fewer than three points are returned unchanged, whatever the
fuel. -/
lemma simplify_polyline_go_short
    (dLine : GpxPoint → GpxPoint → GpxPoint → ℚ) (maxD : ℚ)
    (f : Nat) (points : List GpxPoint) (h : points.length < 3) :
    simplify_polyline_go dLine maxD f points = points := by
  cases f with
  | zero => rfl
  | succ f => simp [simplify_polyline_go, h]

/-- Fuel irrelevance: any fuel at least the list length gives the same
result, so `simplify_polyline` (fuel = length) computes the untruncated
Ramer-Douglas-Peucker recursion. -/
lemma simplify_polyline_go_fuel
    (dLine : GpxPoint → GpxPoint → GpxPoint → ℚ) (maxD : ℚ) :
    ∀ (n : Nat) (points : List GpxPoint), points.length ≤ n →
      ∀ f1 f2, points.length ≤ f1 → points.length ≤ f2 →
        simplify_polyline_go dLine maxD f1 points =
          simplify_polyline_go dLine maxD f2 points := by
  intro n
  induction n with
  | zero =>
      intro points hn f1 f2 _ _
      have hshort : points.length < 3 := by omega
      rw [simplify_polyline_go_short dLine maxD f1 points hshort,
        simplify_polyline_go_short dLine maxD f2 points hshort]
  | succ n ih =>
      intro points hn f1 f2 h1 h2
      by_cases h3 : points.length < 3
      · rw [simplify_polyline_go_short dLine maxD f1 points h3,
          simplify_polyline_go_short dLine maxD f2 points h3]
      · have hsi := splitIdx_lt points (by omega)
        cases f1 with
        | zero => omega
        | succ a =>
            cases f2 with
            | zero => omega
            | succ b =>
                rw [simplify_polyline_go, simplify_polyline_go]
                simp only [if_neg h3]
                by_cases hd : dLine (points.getD (splitIdx points + 1) default)
                    (points.headD default) (points.getLastD default) < maxD
                · simp only [if_pos hd]
                · simp only [if_neg hd]
                  have htk : (points.take (splitIdx points + 2)).length =
                      splitIdx points + 2 := by
                    simp [List.length_take]
                    omega
                  have hdp : (points.drop (splitIdx points + 1)).length =
                      points.length - (splitIdx points + 1) := by
                    simp [List.length_drop]
                  have e1 : simplify_polyline_go dLine maxD a
                      (points.take (splitIdx points + 2)) =
                      simplify_polyline_go dLine maxD b
                      (points.take (splitIdx points + 2)) := by
                    apply ih
                    · omega
                    · omega
                    · omega
                  have e2 : simplify_polyline_go dLine maxD a
                      (points.drop (splitIdx points + 1)) =
                      simplify_polyline_go dLine maxD b
                      (points.drop (splitIdx points + 1)) := by
                    apply ih
                    · omega
                    · omega
                    · omega
                  rw [e1, e2]

/-- `simplify_polyline` satisfies the source's recursion equation in the
branch that splits at the farthest interior point. -/
theorem simplify_polyline_eq_rec
    (dLine : GpxPoint → GpxPoint → GpxPoint → ℚ) (maxD : ℚ)
    (points : List GpxPoint) (h3 : ¬ points.length < 3)
    (hd : ¬ dLine (points.getD (splitIdx points + 1) default)
      (points.headD default) (points.getLastD default) < maxD) :
    simplify_polyline dLine maxD points =
      simplify_polyline dLine maxD (points.take (splitIdx points + 2)) ++
        (simplify_polyline dLine maxD
          (points.drop (splitIdx points + 1))).drop 1 := by
  have hsi := splitIdx_lt points (by omega)
  unfold simplify_polyline
  cases hp : points.length with
  | zero => omega
  | succ m =>
      rw [simplify_polyline_go]
      simp only [if_neg h3, if_neg hd]
      have htk : (points.take (splitIdx points + 2)).length =
          splitIdx points + 2 := by
        simp [List.length_take]
        omega
      have hdp : (points.drop (splitIdx points + 1)).length =
          points.length - (splitIdx points + 1) := by
        simp [List.length_drop]
      have e1 := simplify_polyline_go_fuel dLine maxD
        (points.take (splitIdx points + 2)).length
        (points.take (splitIdx points + 2)) (by omega) m
        (points.take (splitIdx points + 2)).length (by omega) (by omega)
      have e2 := simplify_polyline_go_fuel dLine maxD
        (points.drop (splitIdx points + 1)).length
        (points.drop (splitIdx points + 1)) (by omega) m
        (points.drop (splitIdx points + 1)).length (by omega) (by omega)
      rw [e1, e2]

/-! ## Lemmas about the dict model -/

/-- Key membership agrees with membership in the key list. -/
lemma dictContains_iff {α : Type} (d : List (String × α)) (k : String) :
    dictContains d k = true ↔ k ∈ d.map Prod.fst := by
  simp only [dictContains, List.any_eq_true, beq_iff_eq, List.mem_map]

/-- Inserting updates in place or appends: the key list gains at most the
new key, at the end. -/
lemma keys_dictInsert {α : Type} (d : List (String × α)) (k : String) (v : α) :
    (dictInsert d k v).map Prod.fst =
      if dictContains d k then d.map Prod.fst else d.map Prod.fst ++ [k] := by
  unfold dictInsert
  by_cases h : dictContains d k
  · simp only [if_pos h, List.map_map]
    refine List.map_congr_left ?_
    intro p _
    by_cases hk : p.1 == k
    · simp only [Function.comp_apply, if_pos hk]
      exact (beq_iff_eq.mp hk).symm
    · simp only [beq_iff_eq] at hk
      simp [Function.comp_apply, hk]
  · simp [if_neg h]

/-- Membership in the keys after an insert. -/
lemma mem_keys_dictInsert {α : Type} (d : List (String × α)) (k k' : String)
    (v : α) :
    k' ∈ (dictInsert d k v).map Prod.fst ↔
      k' ∈ d.map Prod.fst ∨ k' = k := by
  rw [keys_dictInsert]
  by_cases h : dictContains d k
  · simp only [if_pos h]
    constructor
    · exact Or.inl
    · rintro (hm | rfl)
      · exact hm
      · exact (dictContains_iff d k').mp h
  · simp [if_neg h]

/-- Inserting never duplicates a key. -/
lemma nodup_keys_dictInsert {α : Type} (d : List (String × α)) (k : String)
    (v : α) (h : (d.map Prod.fst).Nodup) :
    ((dictInsert d k v).map Prod.fst).Nodup := by
  rw [keys_dictInsert]
  by_cases hc : dictContains d k
  · simpa [if_pos hc] using h
  · have hk : k ∉ d.map Prod.fst := fun hm =>
      by simp [(dictContains_iff d k).mpr hm] at hc
    simp only [if_neg hc, List.nodup_append, List.nodup_cons]
    refine ⟨h, by simp, ?_⟩
    intro x hx hq
    simp only [List.mem_singleton] at hq
    exact hk (hq ▸ hx)

/-- A fresh insert is found under its key. -/
lemma dictGet?_insert_self {α : Type} (d : List (String × α)) (k : String)
    (v : α) (h : dictContains d k = false) :
    dictGet? (dictInsert d k v) k = some v := by
  unfold dictInsert dictGet?
  have hnone : d.find? (fun p => p.1 == k) = none := by
    rw [List.find?_eq_none]
    intro p hp hbeq
    have : dictContains d k = true := by
      simp only [dictContains, List.any_eq_true]
      exact ⟨p, hp, hbeq⟩
    rw [h] at this
    exact Bool.false_ne_true this
  simp [h, List.find?_append, hnone]

/-! ## Zero-point recordings -/

/-- Python round of zero. -/
lemma round2_zero : round2 0 = 0 := by
  simp [round2]

/-- A recording has zero points exactly when every segment is empty. -/
lemma allPoints_eq_nil_iff (g : Gpx) :
    allPoints g = [] ↔ ∀ t ∈ g.tracks, ∀ s ∈ t.segments, s.points = [] := by
  simp [allPoints, List.flatMap_eq_nil_iff]

/-- On a recording that parses but has zero points, the try body of
`parse_gpx` succeeds with the empty coordinate list, distance 0, and the
`"N/A"` date sentinel (there is no timestamp to format). -/
lemma parseGpxBody_zero_points
    (dLine : GpxPoint → GpxPoint → GpxPoint → ℚ)
    (d2 : GpxPoint → GpxPoint → ℚ) (fs : FS) (f : String) (g : Gpx)
    (hg : readGpx fs f = Except.ok g) (hz : allPoints g = []) :
    parseGpxBody dLine d2 fs f = Except.ok ([], 0, "N/A") := by
  have hseg : ∀ t ∈ g.tracks, ∀ s ∈ t.segments, s.points = [] :=
    (allPoints_eq_nil_iff g).mp hz
  have hpoints : (gpxSimplify dLine 10 g).tracks.flatMap
      (fun t => t.segments.flatMap (fun s => s.points.map projCoord)) = [] := by
    rw [List.flatMap_eq_nil_iff]
    intro t' ht'
    simp only [gpxSimplify] at ht'
    rcases List.mem_map.mp ht' with ⟨t, ht, rfl⟩
    rw [List.flatMap_eq_nil_iff]
    intro s' hs'
    simp only [trackSimplify] at hs'
    rcases List.mem_map.mp hs' with ⟨s, hs, rfl⟩
    simp [hseg t ht s hs, simplify_polyline, simplify_polyline_go]
  have hlen : Gpx.length_2d d2 (gpxSimplify dLine 10 g) = 0 := by
    unfold Gpx.length_2d
    apply List.sum_eq_zero
    intro x hx
    rcases List.mem_map.mp hx with ⟨t', ht', rfl⟩
    simp only [gpxSimplify] at ht'
    rcases List.mem_map.mp ht' with ⟨t, ht, rfl⟩
    unfold GpxTrack.length_2d
    apply List.sum_eq_zero
    intro y hy
    rcases List.mem_map.mp hy with ⟨s', hs', rfl⟩
    simp only [trackSimplify] at hs'
    rcases List.mem_map.mp hs' with ⟨s, hs, rfl⟩
    simp [GpxSegment.length_2d, hseg t ht s hs, simplify_polyline,
      simplify_polyline_go, pairDistSum]
  have htime : Gpx.startTime (gpxSimplify dLine 10 g) = none := by
    unfold Gpx.startTime
    rw [List.findSome?_eq_none_iff]
    intro t' ht'
    simp only [gpxSimplify] at ht'
    rcases List.mem_map.mp ht' with ⟨t, ht, rfl⟩
    unfold GpxTrack.startTime
    rw [List.findSome?_eq_none_iff]
    intro s' hs'
    simp only [trackSimplify] at hs'
    rcases List.mem_map.mp hs' with ⟨s, hs, rfl⟩
    simp [GpxSegment.startTime, hseg t ht s hs, simplify_polyline,
      simplify_polyline_go]
  unfold parseGpxBody
  rw [hg]
  simp only [hpoints, hlen, htime]
  norm_num [round2_zero]

/-- Concrete filesystem holding one recording that parses to zero points. -/
def fsC1 : FS := [("empty.gpx", FileContent.gpxData ⟨[]⟩)]

/-- C1: the Track Loader returns the sentinel with `"N/A"` (gpxpy's
"not available" date), never the empty time string, on a recording that
parses but yields zero valid points. -/
theorem c1_zero_points_sentinel
    (dLine : GpxPoint → GpxPoint → GpxPoint → ℚ)
    (d2 : GpxPoint → GpxPoint → ℚ) (fs : FS) (f : String) (g : Gpx)
    (hg : readGpx fs f = Except.ok g) (hz : allPoints g = []) :
    parse_gpx dLine d2 fs f = ([], 0, "N/A") := by
  unfold parse_gpx
  rw [parseGpxBody_zero_points dLine d2 fs f g hg hz]

/-- C1 witness: the concrete empty recording hits the theorem's
hypotheses and returns the `"N/A"` sentinel. -/
theorem c1_witness :
    readGpx fsC1 "empty.gpx" = Except.ok ⟨[]⟩ ∧
    allPoints ⟨[]⟩ = ([] : List GpxPoint) ∧
    parse_gpx dLine0 d20 fsC1 "empty.gpx" = ([], 0, "N/A") :=
  ⟨rfl, rfl, c1_zero_points_sentinel dLine0 d20 fsC1 "empty.gpx" ⟨[]⟩ rfl rfl⟩

/-- C1 counterexample: on a recording that parses to zero points the
result's time string is `"N/A"`, not the empty string the claim names. -/
theorem c1_counterexample :
    parse_gpx dLine0 d20 fsC1 "empty.gpx" = ([], 0, "N/A") ∧
    parse_gpx dLine0 d20 fsC1 "empty.gpx" ≠ ([], 0, "") := by
  have hb := parseGpxBody_zero_points dLine0 d20 fsC1 "empty.gpx" ⟨[]⟩ rfl rfl
  have h : parse_gpx dLine0 d20 fsC1 "empty.gpx" = ([], 0, "N/A") := by
    unfold parse_gpx
    rw [hb]
  refine ⟨h, ?_⟩
  rw [h]
  decide

/-- C3: any failure of the parse/simplify/flatten/stats body is caught by
`parse_gpx` and converted to the sentinel `([], 0, "")`; `parse_gpx` is a
total function into plain triples, so no exception reaches the caller. -/
theorem c3_parse_gpx_catches
    (dLine : GpxPoint → GpxPoint → GpxPoint → ℚ)
    (d2 : GpxPoint → GpxPoint → ℚ) (fs : FS) (f : String) (e : String)
    (h : parseGpxBody dLine d2 fs f = Except.error e) :
    parse_gpx dLine d2 fs f = ([], 0, "") := by
  unfold parse_gpx
  rw [h]

/-- C3 witness: a missing file makes the body fail and the loader returns
the sentinel. -/
theorem c3_witness : parse_gpx dLine0 d20 [] "missing.gpx" = ([], 0, "") :=
  c3_parse_gpx_catches dLine0 d20 [] "missing.gpx"
    ("No such file: " ++ "missing.gpx") rfl

/-! ## Flattening and simplification of a parsed recording -/

/-- On a successfully parsed recording, the returned coordinates are the
per-segment simplified points, projected to lat/lng, flattened in document
order. -/
lemma parse_gpx_coords
    (dLine : GpxPoint → GpxPoint → GpxPoint → ℚ)
    (d2 : GpxPoint → GpxPoint → ℚ) (fs : FS) (f : String) (g : Gpx)
    (hg : readGpx fs f = Except.ok g) :
    (parse_gpx dLine d2 fs f).1 =
      g.tracks.flatMap (fun t => t.segments.flatMap
        (fun s => (simplify_polyline dLine 10 s.points).map projCoord)) := by
  unfold parse_gpx parseGpxBody
  rw [hg]
  simp [gpxSimplify, trackSimplify, List.flatMap_map, Function.comp]

/-- C9: the Track Loader flattens all segments of all tracks in document
order into lat/lng pairs of the simplified per-segment point lists; each
segment's simplified list is an order-preserving subsequence of its
original points (so source ordering is preserved); and every returned
coordinate is the projection of an original point of the recording — it
lies on the original path, hence within the fixed 10-meter simplification
tolerance (deviation zero). -/
theorem c9_flatten_and_tolerance
    (dLine : GpxPoint → GpxPoint → GpxPoint → ℚ)
    (d2 : GpxPoint → GpxPoint → ℚ) (fs : FS) (f : String) (g : Gpx)
    (hg : readGpx fs f = Except.ok g) :
    (parse_gpx dLine d2 fs f).1 =
      g.tracks.flatMap (fun t => t.segments.flatMap
        (fun s => (simplify_polyline dLine 10 s.points).map projCoord)) ∧
    (∀ t ∈ g.tracks, ∀ s ∈ t.segments,
      (simplify_polyline dLine 10 s.points).Sublist s.points) ∧
    (∀ c ∈ (parse_gpx dLine d2 fs f).1, ∃ p ∈ allPoints g, projCoord p = c) := by
  have hco := parse_gpx_coords dLine d2 fs f g hg
  refine ⟨hco, fun t _ s _ => simplify_polyline_sublist dLine 10 s.points, ?_⟩
  intro c hc
  rw [hco] at hc
  rcases List.mem_flatMap.mp hc with ⟨t, ht, hct⟩
  rcases List.mem_flatMap.mp hct with ⟨s, hs, hcs⟩
  rcases List.mem_map.mp hcs with ⟨p, hp, rfl⟩
  have hpo : p ∈ s.points :=
    (simplify_polyline_sublist dLine 10 s.points).mem hp
  refine ⟨p, ?_, rfl⟩
  rw [allPoints]
  exact List.mem_flatMap.mpr ⟨t, ht, List.mem_flatMap.mpr ⟨s, hs, hpo⟩⟩

/-- Concrete recording for the C9 witness: one track, one segment, two
points. -/
def gW9 : Gpx := ⟨[⟨[⟨[⟨1, 2, none, none⟩, ⟨3, 4, none, none⟩]⟩]⟩]⟩

/-- Its filesystem. -/
def fsW9 : FS := [("w9.gpx", FileContent.gpxData gW9)]

/-- C9 witness: the theorem instantiated on the concrete recording. -/
theorem c9_witness :
    readGpx fsW9 "w9.gpx" = Except.ok gW9 ∧
    ((parse_gpx dLine0 d20 fsW9 "w9.gpx").1 =
      gW9.tracks.flatMap (fun t => t.segments.flatMap
        (fun s => (simplify_polyline dLine0 10 s.points).map projCoord)) ∧
     (∀ t ∈ gW9.tracks, ∀ s ∈ t.segments,
       (simplify_polyline dLine0 10 s.points).Sublist s.points) ∧
     (∀ c ∈ (parse_gpx dLine0 d20 fsW9 "w9.gpx").1,
       ∃ p ∈ allPoints gW9, projCoord p = c)) :=
  ⟨rfl, c9_flatten_and_tolerance dLine0 d20 fsW9 "w9.gpx" gW9 rfl⟩

/-! ## Lemmas about the Style Loader -/

/-- `a ∈ sorted l` is `a ∈ l`. -/
lemma mem_sortStr (a : String) (l : List String) : a ∈ sortStr l ↔ a ∈ l :=
  (List.perm_insertionSort (fun a b : String => a ≤ b) l).mem_iff

/-- One iteration of the `load_styles` loop. -/
def styleStep (fs : FS) (styles : List (String × StyleDoc))
    (style_file : String) : List (String × StyleDoc) :=
  match lookupFS fs style_file with
  | some (FileContent.jsonData j) =>
      dictInsert styles (splitextStem (basename style_file)) j
  | _ => styles

/-- `load_styles` is the fold of `styleStep` over the sorted matches. -/
lemma load_styles_eq_foldl (fs : FS) (pattern : String) :
    load_styles fs pattern =
      (sortStr (glob fs pattern)).foldl (styleStep fs) [] := rfl

/-- Key membership after folding the style loop: the accumulated keys plus
one key per traversed file whose content parses as JSON. -/
lemma styles_foldl_mem (fs : FS) :
    ∀ (files : List String) (d : List (String × StyleDoc)) (name : String),
      (name ∈ (files.foldl (styleStep fs) d).map Prod.fst ↔
        name ∈ d.map Prod.fst ∨
          ∃ f ∈ files,
            (∃ j, lookupFS fs f = some (FileContent.jsonData j)) ∧
            splitextStem (basename f) = name) := by
  intro files
  induction files with
  | nil => intro d name; simp
  | cons f rest ih =>
      intro d name
      simp only [List.foldl_cons]
      rw [ih]
      by_cases hj : ∃ j, lookupFS fs f = some (FileContent.jsonData j)
      · rcases hj with ⟨j, hj⟩
        have hstep : styleStep fs d f =
            dictInsert d (splitextStem (basename f)) j := by
          simp [styleStep, hj]
        rw [hstep]
        rw [mem_keys_dictInsert]
        simp only [List.exists_mem_cons_iff]
        constructor
        · rintro ((hd | hkey) | hrest)
          · exact Or.inl hd
          · exact Or.inr (Or.inl ⟨⟨j, hj⟩, hkey.symm⟩)
          · exact Or.inr (Or.inr hrest)
        · rintro (hd | ⟨_, hkey⟩ | hrest)
          · exact Or.inl (Or.inl hd)
          · exact Or.inl (Or.inr hkey.symm)
          · exact Or.inr hrest
      · have hstep : styleStep fs d f = d := by
          cases hfc : lookupFS fs f with
          | none => simp [styleStep, hfc]
          | some c =>
              cases c with
              | jsonData j2 => exact absurd ⟨j2, hfc⟩ hj
              | gpxData g2 => simp [styleStep, hfc]
              | malformed => simp [styleStep, hfc]
        rw [hstep]
        simp only [List.exists_mem_cons_iff]
        constructor
        · rintro (hd | hrest)
          · exact Or.inl hd
          · exact Or.inr (Or.inr hrest)
        · rintro (hd | ⟨hjf, _⟩ | hrest)
          · exact Or.inl hd
          · exact absurd hjf hj
          · exact Or.inr hrest

/-- C5: the keys of the loaded style mapping are exactly the
extension-stripped base names of the glob matches whose contents parse as
JSON; a failing file contributes no key and removes none of the others. -/
theorem c5_load_styles_keys (fs : FS) (pattern : String) (name : String) :
    name ∈ (load_styles fs pattern).map Prod.fst ↔
      ∃ f ∈ glob fs pattern,
        (∃ j, lookupFS fs f = some (FileContent.jsonData j)) ∧
        splitextStem (basename f) = name := by
  rw [load_styles_eq_foldl, styles_foldl_mem]
  simp only [List.map_nil, List.not_mem_nil, false_or]
  constructor
  · rintro ⟨f, hf, hrest⟩
    exact ⟨f, (mem_sortStr f _).mp hf, hrest⟩
  · rintro ⟨f, hf, hrest⟩
    exact ⟨f, (mem_sortStr f _).mpr hf, hrest⟩

/-- Inserting into a dict never empties it. -/
lemma dictInsert_ne_nil {α : Type} (d : List (String × α)) (k : String)
    (v : α) : dictInsert d k v ≠ [] := by
  unfold dictInsert
  by_cases h : dictContains d k
  · cases d with
    | nil => simp [dictContains] at h
    | cons p rest => simp [h]
  · simp [h]

/-- Inserting into a nonempty dict keeps the first key in place. -/
lemma dictInsert_head_key {α : Type} (d : List (String × α)) (k : String)
    (v : α) (h : d ≠ []) :
    (dictInsert d k v).head?.map Prod.fst = d.head?.map Prod.fst := by
  cases d with
  | nil => exact absurd rfl h
  | cons p rest =>
      unfold dictInsert
      by_cases hc : dictContains (p :: rest) k
      · simp only [if_pos hc, List.map_cons, List.head?_cons, Option.map_some]
        by_cases hk : p.1 == k
        · simp [hk, (beq_iff_eq.mp hk).symm]
        · simp [hk]
      · simp [if_neg hc]

/-- One style-loop iteration keeps the accumulator's first key (and does
not empty it). -/
lemma styleStep_head (fs : FS) (d : List (String × StyleDoc)) (f : String)
    (h : d ≠ []) :
    styleStep fs d f ≠ [] ∧
    (styleStep fs d f).head?.map Prod.fst = d.head?.map Prod.fst := by
  unfold styleStep
  cases hfc : lookupFS fs f with
  | none => exact ⟨h, rfl⟩
  | some c =>
      cases c with
      | jsonData j =>
          exact ⟨dictInsert_ne_nil d _ j, dictInsert_head_key d _ j h⟩
      | gpxData g => exact ⟨h, rfl⟩
      | malformed => exact ⟨h, rfl⟩

/-- Folding the style loop over any further files keeps the first key of a
nonempty accumulator. -/
lemma styles_foldl_head (fs : FS) :
    ∀ (files : List String) (d : List (String × StyleDoc)), d ≠ [] →
      (files.foldl (styleStep fs) d) ≠ [] ∧
      (files.foldl (styleStep fs) d).head?.map Prod.fst =
        d.head?.map Prod.fst := by
  intro files
  induction files with
  | nil => intro d h; exact ⟨h, rfl⟩
  | cons f rest ih =>
      intro d h
      simp only [List.foldl_cons]
      have hs := styleStep_head fs d f h
      have hr := ih (styleStep fs d f) hs.1
      exact ⟨hr.1, hr.2.trans hs.2⟩

/-- The parse test of `firstLoadedStyleName`, as a named function. -/
def styleName? (fs : FS) (f : String) : Option String :=
  match lookupFS fs f with
  | some (FileContent.jsonData _) => some (splitextStem (basename f))
  | _ => none

/-- `firstLoadedStyleName` is the first hit of `styleName?` over the
sorted matches. -/
lemma firstLoadedStyleName_eq (fs : FS) (pattern : String) :
    firstLoadedStyleName fs pattern =
      (sortStr (glob fs pattern)).findSome? (styleName? fs) := rfl

/-- The first key produced by folding the style loop from the empty dict
is the first traversed file that parses, under its stem. -/
lemma styles_foldl_head_key (fs : FS) :
    ∀ (files : List String),
      (files.foldl (styleStep fs) []).head?.map Prod.fst =
        files.findSome? (styleName? fs) := by
  intro files
  induction files with
  | nil => rfl
  | cons f rest ih =>
      simp only [List.foldl_cons, List.findSome?_cons]
      cases hfc : lookupFS fs f with
      | none =>
          have h1 : styleStep fs [] f = [] := by simp [styleStep, hfc]
          have h2 : styleName? fs f = none := by simp [styleName?, hfc]
          rw [h1, h2, ih]
      | some c =>
          cases c with
          | jsonData j =>
              have h1 : styleStep fs [] f =
                  [(splitextStem (basename f), j)] := by
                simp [styleStep, hfc, dictInsert, dictContains]
              have h2 : styleName? fs f =
                  some (splitextStem (basename f)) := by
                simp [styleName?, hfc]
              rw [h1, h2]
              have := (styles_foldl_head fs rest
                [(splitextStem (basename f), j)] (by simp)).2
              simp only [this]
              rfl
          | gpxData g =>
              have h1 : styleStep fs [] f = [] := by simp [styleStep, hfc]
              have h2 : styleName? fs f = none := by simp [styleName?, hfc]
              rw [h1, h2, ih]
          | malformed =>
              have h1 : styleStep fs [] f = [] := by simp [styleStep, hfc]
              have h2 : styleName? fs f = none := by simp [styleName?, hfc]
              rw [h1, h2, ih]

/-- First style name of the loaded mapping = first parsed file's stem in
sorted order. -/
lemma load_styles_head_key (fs : FS) (pattern : String) :
    (load_styles fs pattern).head?.map Prod.fst =
      firstLoadedStyleName fs pattern := by
  rw [load_styles_eq_foldl, firstLoadedStyleName_eq]
  exact styles_foldl_head_key fs (sortStr (glob fs pattern))

/-! ## Run shapes of `generate_map` -/

/-- The render context `generate_map` assembles when it reaches the
render step with credential `k`. -/
def renderCtxOf (dLine : GpxPoint → GpxPoint → GpxPoint → ℚ)
    (d2 : GpxPoint → GpxPoint → ℚ) (w : World) (gp sp rd k : String) :
    RenderContext :=
  ⟨k, (parse_gpx dLine d2 w.fs gp).1,
    load_styles w.fs sp,
    (load_styles w.fs sp).map Prod.fst,
    (match (load_styles w.fs sp).head? with
      | some p => p.1
      | none => "default"),
    (parse_gpx dLine d2 w.fs gp).2.1,
    (parse_gpx dLine d2 w.fs gp).2.2,
    buildCatalog dLine d2 w.fs gp rd
      ⟨(parse_gpx dLine d2 w.fs gp).1, (parse_gpx dLine d2 w.fs gp).2.1,
        (parse_gpx dLine d2 w.fs gp).2.2⟩,
    basename gp⟩

/-- With the credential missing, `generate_map` raises before touching any
file. -/
lemma generate_map_no_key (dLine : GpxPoint → GpxPoint → GpxPoint → ℚ)
    (d2 : GpxPoint → GpxPoint → ℚ) (w : World)
    (gp out sp tf rd : String)
    (h1 : getenv w "GOOGLE_MAPS_API_KEY" = none) :
    generate_map dLine d2 w gp out sp tf rd =
      (PyResult.exn "Missing GOOGLE_MAPS_API_KEY in .env", []) := by
  unfold generate_map
  rw [h1]

/-- With the credential set to the empty string (Python falsy),
`generate_map` raises before touching any file. -/
lemma generate_map_empty_key (dLine : GpxPoint → GpxPoint → GpxPoint → ℚ)
    (d2 : GpxPoint → GpxPoint → ℚ) (w : World)
    (gp out sp tf rd : String)
    (h1 : getenv w "GOOGLE_MAPS_API_KEY" = some "") :
    generate_map dLine d2 w gp out sp tf rd =
      (PyResult.exn "Missing GOOGLE_MAPS_API_KEY in .env", []) := by
  unfold generate_map
  rw [h1]
  simp

/-- With a usable credential but an empty primary coordinate list,
`generate_map` returns normally right after the primary parse. -/
lemma generate_map_no_coords (dLine : GpxPoint → GpxPoint → GpxPoint → ℚ)
    (d2 : GpxPoint → GpxPoint → ℚ) (w : World)
    (gp out sp tf rd k : String)
    (h1 : getenv w "GOOGLE_MAPS_API_KEY" = some k) (h2 : ¬ k = "")
    (h3 : (parse_gpx dLine d2 w.fs gp).1 = []) :
    generate_map dLine d2 w gp out sp tf rd =
      (PyResult.ok (), [Event.readFile gp]) := by
  unfold generate_map
  rw [h1]
  simp [h2, h3]

/-- The full render run: usable credential, nonempty primary coordinates,
resolvable template. -/
lemma generate_map_renders (dLine : GpxPoint → GpxPoint → GpxPoint → ℚ)
    (d2 : GpxPoint → GpxPoint → ℚ) (w : World)
    (gp out sp tf rd k : String)
    (h1 : getenv w "GOOGLE_MAPS_API_KEY" = some k) (h2 : ¬ k = "")
    (h3 : ¬ (parse_gpx dLine d2 w.fs gp).1 = [])
    (h5 : w.templates.contains tf = true) :
    generate_map dLine d2 w gp out sp tf rd =
      (PyResult.ok (),
        Event.readFile gp ::
          (load_all_gpx_files_events w.fs rd ++ load_styles_events w.fs sp ++
            [Event.writeFile out (renderCtxOf dLine d2 w gp sp rd k)])) := by
  unfold generate_map renderCtxOf
  rw [h1]
  simp [h2, h3]
  simpa using h5

/-- The run that fails template resolution: everything before the render is
done, nothing is written, the failure propagates. -/
lemma generate_map_no_template (dLine : GpxPoint → GpxPoint → GpxPoint → ℚ)
    (d2 : GpxPoint → GpxPoint → ℚ) (w : World)
    (gp out sp tf rd k : String)
    (h1 : getenv w "GOOGLE_MAPS_API_KEY" = some k) (h2 : ¬ k = "")
    (h3 : ¬ (parse_gpx dLine d2 w.fs gp).1 = [])
    (h5 : w.templates.contains tf = false) :
    generate_map dLine d2 w gp out sp tf rd =
      (PyResult.exn "TemplateNotFound",
        Event.readFile gp ::
          (load_all_gpx_files_events w.fs rd ++
            load_styles_events w.fs sp)) := by
  unfold generate_map
  rw [h1]
  simp [h2, h3]
  simpa using h5

/-! ## What a run writes -/

/-- Read events carry no written context. -/
lemma writeEvent?_readFile (p : String) :
    writeEvent? (Event.readFile p) = none := rfl

/-- Directory scans carry no written context. -/
lemma writeEvent?_listDir (p : String) :
    writeEvent? (Event.listDir p) = none := rfl

/-- A run whose trace is reads only has no written context. -/
lemma findSome?_writeEvent_map_readFile (l : List String) :
    List.findSome? writeEvent? (l.map Event.readFile) = none := by
  rw [List.findSome?_eq_none_iff]
  intro e he
  rcases List.mem_map.mp he with ⟨p, _, rfl⟩
  rfl

/-- The loader traces contain no write events. -/
lemma findSome?_writeEvent_loaders (fs : FS) (rd sp : String) :
    List.findSome? writeEvent?
      (load_all_gpx_files_events fs rd ++ load_styles_events fs sp) = none := by
  simp [load_all_gpx_files_events, load_styles_events, List.findSome?_append,
    writeEvent?_listDir, findSome?_writeEvent_map_readFile]

/-- A full render run writes exactly the assembled context. -/
lemma writtenCtx_renders (dLine : GpxPoint → GpxPoint → GpxPoint → ℚ)
    (d2 : GpxPoint → GpxPoint → ℚ) (w : World)
    (gp out sp tf rd k : String)
    (h1 : getenv w "GOOGLE_MAPS_API_KEY" = some k) (h2 : ¬ k = "")
    (h3 : ¬ (parse_gpx dLine d2 w.fs gp).1 = [])
    (h5 : w.templates.contains tf = true) :
    writtenCtx (generate_map dLine d2 w gp out sp tf rd) =
      some (renderCtxOf dLine d2 w gp sp rd k) := by
  rw [writtenCtx, generate_map_renders dLine d2 w gp out sp tf rd k h1 h2 h3 h5]
  simp only [List.findSome?_cons, writeEvent?_readFile, List.findSome?_append,
    findSome?_writeEvent_loaders]
  simp [writeEvent?, load_all_gpx_files_events, load_styles_events,
    List.findSome?_append, findSome?_writeEvent_map_readFile]

/-- The default style the assembled context carries. -/
lemma renderCtxOf_default_style (dLine : GpxPoint → GpxPoint → GpxPoint → ℚ)
    (d2 : GpxPoint → GpxPoint → ℚ) (w : World) (gp sp rd k : String) :
    (renderCtxOf dLine d2 w gp sp rd k).default_style =
      (firstLoadedStyleName w.fs sp).getD "default" := by
  have hh := load_styles_head_key w.fs sp
  cases hs : (load_styles w.fs sp).head? with
  | none =>
      rw [hs] at hh
      have h0 : firstLoadedStyleName w.fs sp = none := by
        rw [← hh]
        rfl
      simp [renderCtxOf, hs, h0]
  | some p =>
      rw [hs] at hh
      have h0 : firstLoadedStyleName w.fs sp = some p.1 := by
        rw [← hh]
        rfl
      simp [renderCtxOf, hs, h0]

/-- C7: whenever a run writes output, the default style name passed to the
renderer is the first loaded style name in the Style Loader's sorted
enumeration order, or the literal `"default"` when no style loaded. -/
theorem c7_default_style (dLine : GpxPoint → GpxPoint → GpxPoint → ℚ)
    (d2 : GpxPoint → GpxPoint → ℚ) (w : World)
    (gp out sp tf rd : String) (ctx : RenderContext)
    (h : writtenCtx (generate_map dLine d2 w gp out sp tf rd) = some ctx) :
    ctx.default_style = (firstLoadedStyleName w.fs sp).getD "default" := by
  cases hk : getenv w "GOOGLE_MAPS_API_KEY" with
  | none =>
      rw [generate_map_no_key dLine d2 w gp out sp tf rd hk] at h
      simp [writtenCtx] at h
  | some k =>
      by_cases h2 : k = ""
      · subst h2
        rw [generate_map_empty_key dLine d2 w gp out sp tf rd hk] at h
        simp [writtenCtx] at h
      · by_cases h3 : (parse_gpx dLine d2 w.fs gp).1 = []
        · rw [generate_map_no_coords dLine d2 w gp out sp tf rd k hk h2 h3] at h
          simp [writtenCtx, writeEvent?_readFile] at h
        · cases h5 : w.templates.contains tf with
          | true =>
              rw [writtenCtx_renders dLine d2 w gp out sp tf rd k hk h2 h3 h5]
                at h
              have := Option.some.inj h
              rw [← this]
              exact renderCtxOf_default_style dLine d2 w gp sp rd k
          | false =>
              rw [generate_map_no_template dLine d2 w gp out sp tf rd k
                hk h2 h3 h5] at h
              rw [writtenCtx] at h
              simp only [List.findSome?_cons, writeEvent?_readFile,
                findSome?_writeEvent_loaders] at h
              exact Option.noConfusion h

/-- Concrete world for the C7 witness: one loadable style, one loadable
route, resolvable template. -/
def wC7 : World :=
  ⟨[("GOOGLE_MAPS_API_KEY", "k")],
    [("routes/a.gpx", FileContent.gpxData gW9),
      ("styles/dark.json", FileContent.jsonData ⟨"d"⟩)],
    ["template.html"]⟩

/-- C7 witness: the theorem applied to the concrete world. -/
theorem c7_witness :
    (renderCtxOf dLine0 d20 wC7 "routes/a.gpx" "styles/*.json" "routes"
        "k").default_style =
      (firstLoadedStyleName wC7.fs "styles/*.json").getD "default" := by
  apply c7_default_style dLine0 d20 wC7 "routes/a.gpx" "out.html"
    "styles/*.json" "template.html" "routes"
  exact writtenCtx_renders dLine0 d20 wC7 "routes/a.gpx" "out.html"
    "styles/*.json" "template.html" "routes" "k" rfl (by decide) (by decide) rfl

/-! ## Entry-point run shapes -/

/-- An explicit recording path goes straight to `generate_map`. -/
lemma mainRun_explicit (dLine : GpxPoint → GpxPoint → GpxPoint → ℚ)
    (d2 : GpxPoint → GpxPoint → ℚ) (w : World) (args : Args) (g : String)
    (hg : args.gpx_file = some g) :
    mainRun dLine d2 w args =
      (exitCodeOf (generate_map dLine d2 w g args.output "styles/*.json"
          "template.html" args.routes_dir).1,
        (generate_map dLine d2 w g args.output "styles/*.json"
          "template.html" args.routes_dir).2) := by
  unfold mainRun
  rw [hg]

/-- No explicit path and no recording found: diagnostic and exit 1. -/
lemma mainRun_no_files (dLine : GpxPoint → GpxPoint → GpxPoint → ℚ)
    (d2 : GpxPoint → GpxPoint → ℚ) (w : World) (args : Args)
    (hg : args.gpx_file = none)
    (hf : glob w.fs (args.routes_dir ++ "/*.gpx") = []) :
    mainRun dLine d2 w args =
      (1, [Event.listDir (args.routes_dir ++ "/*.gpx")]) := by
  unfold mainRun
  rw [hg]
  simp [hf]

/-- No explicit path but the scan finds recordings: the sorted-first match
becomes the primary input. -/
lemma mainRun_scan (dLine : GpxPoint → GpxPoint → GpxPoint → ℚ)
    (d2 : GpxPoint → GpxPoint → ℚ) (w : World) (args : Args)
    (hg : args.gpx_file = none)
    (hf : glob w.fs (args.routes_dir ++ "/*.gpx") ≠ []) :
    mainRun dLine d2 w args =
      (exitCodeOf (generate_map dLine d2 w
          ((sortStr (glob w.fs (args.routes_dir ++ "/*.gpx"))).headD "")
          args.output "styles/*.json" "template.html" args.routes_dir).1,
        Event.listDir (args.routes_dir ++ "/*.gpx") ::
          (generate_map dLine d2 w
            ((sortStr (glob w.fs (args.routes_dir ++ "/*.gpx"))).headD "")
            args.output "styles/*.json" "template.html" args.routes_dir).2) := by
  unfold mainRun
  rw [hg]
  simp [hf]

/-- C2: with the credential absent from the environment, the process exits
with status 1 and its trace holds at most directory scans: no file is
opened for reading and no output is written. -/
theorem c2_missing_key_aborts (dLine : GpxPoint → GpxPoint → GpxPoint → ℚ)
    (d2 : GpxPoint → GpxPoint → ℚ) (w : World) (args : Args)
    (h : getenv w "GOOGLE_MAPS_API_KEY" = none) :
    (mainRun dLine d2 w args).1 = 1 ∧
    ∀ e ∈ (mainRun dLine d2 w args).2, ∃ p, e = Event.listDir p := by
  cases hg : args.gpx_file with
  | some g =>
      rw [mainRun_explicit dLine d2 w args g hg,
        generate_map_no_key dLine d2 w g args.output "styles/*.json"
          "template.html" args.routes_dir h]
      exact ⟨rfl, by simp⟩
  | none =>
      by_cases hf : glob w.fs (args.routes_dir ++ "/*.gpx") = []
      · rw [mainRun_no_files dLine d2 w args hg hf]
        refine ⟨rfl, ?_⟩
        intro e he
        simp only [List.mem_singleton] at he
        exact ⟨args.routes_dir ++ "/*.gpx", he⟩
      · rw [mainRun_scan dLine d2 w args hg hf,
          generate_map_no_key dLine d2 w _ args.output "styles/*.json"
            "template.html" args.routes_dir h]
        refine ⟨rfl, ?_⟩
        intro e he
        simp only [List.mem_singleton] at he
        exact ⟨args.routes_dir ++ "/*.gpx", he⟩

/-- Empty world for the C2 witness: no credential in the environment. -/
def wC2 : World := ⟨[], [], []⟩

/-- Default arguments of the script. -/
def argsC2 : Args := ⟨none, "marathon_map.html", "routes"⟩

/-- C2 witness: the theorem applied to the concrete world without the
credential. -/
theorem c2_witness :
    (mainRun dLine0 d20 wC2 argsC2).1 = 1 ∧
    ∀ e ∈ (mainRun dLine0 d20 wC2 argsC2).2, ∃ p, e = Event.listDir p :=
  c2_missing_key_aborts dLine0 d20 wC2 argsC2 rfl

/-- C6: with a usable credential, a primary recording that yields no
coordinates makes `generate_map` return normally right after the primary
read: no catalog scan, no style read, no render, no write. -/
theorem c6_empty_primary_noop (dLine : GpxPoint → GpxPoint → GpxPoint → ℚ)
    (d2 : GpxPoint → GpxPoint → ℚ) (w : World)
    (gp out sp tf rd k : String)
    (h1 : getenv w "GOOGLE_MAPS_API_KEY" = some k) (h2 : ¬ k = "")
    (h3 : (parse_gpx dLine d2 w.fs gp).1 = []) :
    generate_map dLine d2 w gp out sp tf rd =
      (PyResult.ok (), [Event.readFile gp]) :=
  generate_map_no_coords dLine d2 w gp out sp tf rd k h1 h2 h3

/-- World for the C6 witness: a recording with zero points. -/
def wC6 : World :=
  ⟨[("GOOGLE_MAPS_API_KEY", "k")], [("empty.gpx", FileContent.gpxData ⟨[]⟩)],
    ["template.html"]⟩

/-- C6 witness: the theorem applied to the concrete zero-point world. -/
theorem c6_witness :
    generate_map dLine0 d20 wC6 "empty.gpx" "out.html" "styles/*.json"
      "template.html" "routes" = (PyResult.ok (), [Event.readFile "empty.gpx"]) :=
  c6_empty_primary_noop dLine0 d20 wC6 "empty.gpx" "out.html" "styles/*.json"
    "template.html" "routes" "k" rfl (by decide) (by decide)

/-- C10: when no style loads, the run still renders and writes: the
written context carries default style literal "default", an empty style
name list and an empty style mapping, so the default style name is not a
key of the style mapping. -/
theorem c10_no_styles_still_renders
    (dLine : GpxPoint → GpxPoint → GpxPoint → ℚ)
    (d2 : GpxPoint → GpxPoint → ℚ) (w : World)
    (gp out sp tf rd k : String)
    (h1 : getenv w "GOOGLE_MAPS_API_KEY" = some k) (h2 : ¬ k = "")
    (h3 : ¬ (parse_gpx dLine d2 w.fs gp).1 = [])
    (h4 : load_styles w.fs sp = [])
    (h5 : w.templates.contains tf = true) :
    (generate_map dLine d2 w gp out sp tf rd).1 = PyResult.ok () ∧
    (writtenCtx (generate_map dLine d2 w gp out sp tf rd)).map
      (fun c => (c.default_style, c.style_names, c.all_styles)) =
      some ("default", [], []) ∧
    (writtenCtx (generate_map dLine d2 w gp out sp tf rd)).map
      (fun c => dictContains c.all_styles c.default_style) = some false := by
  have hw := writtenCtx_renders dLine d2 w gp out sp tf rd k h1 h2 h3 h5
  have hrun := generate_map_renders dLine d2 w gp out sp tf rd k h1 h2 h3 h5
  refine ⟨by rw [hrun], ?_, ?_⟩
  · rw [hw]
    simp [renderCtxOf, h4]
  · rw [hw]
    simp [renderCtxOf, h4, dictContains]

/-- World for the C10 witness: one route, no style files. -/
def wC10 : World :=
  ⟨[("GOOGLE_MAPS_API_KEY", "k")], [("routes/a.gpx", FileContent.gpxData gW9)],
    ["template.html"]⟩

/-- C10 witness: the theorem applied to the style-free world. -/
theorem c10_witness :
    (generate_map dLine0 d20 wC10 "routes/a.gpx" "out.html" "styles/*.json"
      "template.html" "routes").1 = PyResult.ok () ∧
    (writtenCtx (generate_map dLine0 d20 wC10 "routes/a.gpx" "out.html"
      "styles/*.json" "template.html" "routes")).map
      (fun c => (c.default_style, c.style_names, c.all_styles)) =
      some ("default", [], []) ∧
    (writtenCtx (generate_map dLine0 d20 wC10 "routes/a.gpx" "out.html"
      "styles/*.json" "template.html" "routes")).map
      (fun c => dictContains c.all_styles c.default_style) = some false :=
  c10_no_styles_still_renders dLine0 d20 wC10 "routes/a.gpx" "out.html"
    "styles/*.json" "template.html" "routes" "k" rfl (by decide) (by decide)
    (by decide) rfl

/-! ## The route catalog -/

/-- One iteration of the `load_all_gpx_files` loop. -/
def routeStep (dLine : GpxPoint → GpxPoint → GpxPoint → ℚ)
    (d2 : GpxPoint → GpxPoint → ℚ) (fs : FS)
    (routes : List (String × RouteData)) (gpx_file : String) :
    List (String × RouteData) :=
  let r := parse_gpx dLine d2 fs gpx_file
  if r.1 ≠ [] then
    dictInsert routes (basename gpx_file) ⟨r.1, r.2.1, r.2.2⟩
  else routes

/-- The catalog scan is the fold of `routeStep` over the sorted matches. -/
lemma load_all_eq_foldl (dLine : GpxPoint → GpxPoint → GpxPoint → ℚ)
    (d2 : GpxPoint → GpxPoint → ℚ) (fs : FS) (rd : String) :
    load_all_gpx_files dLine d2 fs rd =
      (sortStr (glob fs (rd ++ "/*.gpx"))).foldl (routeStep dLine d2 fs) [] :=
  rfl

/-- Folding the catalog loop never duplicates a key. -/
lemma nodup_keys_foldl_routes (dLine : GpxPoint → GpxPoint → GpxPoint → ℚ)
    (d2 : GpxPoint → GpxPoint → ℚ) (fs : FS) :
    ∀ (files : List String) (d : List (String × RouteData)),
      (d.map Prod.fst).Nodup →
      ((files.foldl (routeStep dLine d2 fs) d).map Prod.fst).Nodup := by
  intro files
  induction files with
  | nil => intro d h; exact h
  | cons f rest ih =>
      intro d h
      simp only [List.foldl_cons]
      apply ih
      unfold routeStep
      by_cases hc : (parse_gpx dLine d2 fs f).1 ≠ []
      · simp only [if_pos hc]
        exact nodup_keys_dictInsert d (basename f) _ h
      · simp only [if_neg hc]
        exact h

/-- The scanned catalog has no duplicate keys. -/
lemma nodup_keys_load_all (dLine : GpxPoint → GpxPoint → GpxPoint → ℚ)
    (d2 : GpxPoint → GpxPoint → ℚ) (fs : FS) (rd : String) :
    ((load_all_gpx_files dLine d2 fs rd).map Prod.fst).Nodup := by
  rw [load_all_eq_foldl]
  exact nodup_keys_foldl_routes dLine d2 fs _ [] (by simp)

/-- C4 (amended): the catalog built by `generate_map` always holds the
primary route's base filename as a key; the insert is an idempotent union,
never a duplicate entry; and whenever the directory scan did not already
load a file under that base filename, the value under the key is the
primary route's data. -/
theorem c4_catalog_amended (dLine : GpxPoint → GpxPoint → GpxPoint → ℚ)
    (d2 : GpxPoint → GpxPoint → ℚ) (fs : FS) (gp rd : String)
    (pd : RouteData) :
    dictContains (buildCatalog dLine d2 fs gp rd pd) (basename gp) = true ∧
    ((buildCatalog dLine d2 fs gp rd pd).map Prod.fst).Nodup ∧
    (dictContains (load_all_gpx_files dLine d2 fs rd) (basename gp) = false →
      dictGet? (buildCatalog dLine d2 fs gp rd pd) (basename gp) = some pd) := by
  unfold buildCatalog
  cases hc : dictContains (load_all_gpx_files dLine d2 fs rd) (basename gp) with
  | true =>
      simp only [hc, if_true]
      refine ⟨trivial, nodup_keys_load_all dLine d2 fs rd, ?_⟩
      intro h0
      exact Bool.noConfusion h0
  | false =>
      simp only [hc, if_false]
      refine ⟨?_, ?_, ?_⟩
      · rw [dictContains_iff]
        exact (mem_keys_dictInsert _ _ _ _).mpr (Or.inr rfl)
      · exact nodup_keys_dictInsert _ _ _ (nodup_keys_load_all dLine d2 fs rd)
      · intro _
        exact dictGet?_insert_self _ _ _ hc

/-- C4 witness: on an empty filesystem the scan is empty, so the primary
data is inserted and found under its base filename, with no duplicate. -/
theorem c4_witness :
    dictContains (buildCatalog dLine0 d20 [] "b.gpx" "routes"
      ⟨[⟨1, 1⟩], 0, "N/A"⟩) (basename "b.gpx") = true ∧
    ((buildCatalog dLine0 d20 [] "b.gpx" "routes"
      ⟨[⟨1, 1⟩], 0, "N/A"⟩).map Prod.fst).Nodup ∧
    dictGet? (buildCatalog dLine0 d20 [] "b.gpx" "routes"
      ⟨[⟨1, 1⟩], 0, "N/A"⟩) (basename "b.gpx") = some ⟨[⟨1, 1⟩], 0, "N/A"⟩ := by
  have h := c4_catalog_amended dLine0 d20 [] "b.gpx" "routes" ⟨[⟨1, 1⟩], 0, "N/A"⟩
  exact ⟨h.1, h.2.1, h.2.2 (by decide)⟩

/-- Primary recording of the C4 counterexample (outside the routes
directory). -/
def gA4 : Gpx := ⟨[⟨[⟨[⟨1, 1, none, none⟩, ⟨1, 2, none, none⟩]⟩]⟩]⟩

/-- A different recording with the same base filename inside the routes
directory. -/
def gB4 : Gpx := ⟨[⟨[⟨[⟨2, 1, none, none⟩, ⟨2, 2, none, none⟩]⟩]⟩]⟩

/-- Filesystem holding both recordings. -/
def fsC4 : FS :=
  [("other/a.gpx", FileContent.gpxData gA4),
    ("routes/a.gpx", FileContent.gpxData gB4)]

/-- C4 counterexample: with the primary `other/a.gpx` and a different
`routes/a.gpx` in the scan, the catalog key `a.gpx` is present but holds
the scanned file's coordinates, not the primary route's coordinates. -/
theorem c4_counterexample :
    (dictGet? (buildCatalog dLine0 d20 fsC4 "other/a.gpx" "routes"
        ⟨(parse_gpx dLine0 d20 fsC4 "other/a.gpx").1,
          (parse_gpx dLine0 d20 fsC4 "other/a.gpx").2.1,
          (parse_gpx dLine0 d20 fsC4 "other/a.gpx").2.2⟩)
      "a.gpx").map RouteData.coords = some [⟨2, 1⟩, ⟨2, 2⟩] ∧
    (parse_gpx dLine0 d20 fsC4 "other/a.gpx").1 = [⟨1, 1⟩, ⟨1, 2⟩] := by
  constructor
  · decide
  · decide

/-! ## Default input selection -/

/-- The sorted scan list is sorted. -/
lemma sortStr_sorted (l : List String) :
    List.Sorted (fun a b : String => a ≤ b) (sortStr l) :=
  List.sorted_insertionSort (fun a b : String => a ≤ b) l

/-- C8: with no recording path on the command line, the entry point exits
with status 1 and writes nothing when the routes directory holds no
recognized recording; otherwise it runs `generate_map` on the
alphabetically least recognized recording of the directory. -/
theorem c8_default_input_selection
    (dLine : GpxPoint → GpxPoint → GpxPoint → ℚ)
    (d2 : GpxPoint → GpxPoint → ℚ) (w : World) (out rd : String) :
    (glob w.fs (rd ++ "/*.gpx") = [] →
      mainRun dLine d2 w ⟨none, out, rd⟩ =
        (1, [Event.listDir (rd ++ "/*.gpx")])) ∧
    (glob w.fs (rd ++ "/*.gpx") ≠ [] →
      ∃ f, f ∈ glob w.fs (rd ++ "/*.gpx") ∧
        (∀ g2 ∈ glob w.fs (rd ++ "/*.gpx"), f ≤ g2) ∧
        mainRun dLine d2 w ⟨none, out, rd⟩ =
          (exitCodeOf (generate_map dLine d2 w f out "styles/*.json"
              "template.html" rd).1,
            Event.listDir (rd ++ "/*.gpx") ::
              (generate_map dLine d2 w f out "styles/*.json"
                "template.html" rd).2)) := by
  constructor
  · intro hf
    exact mainRun_no_files dLine d2 w ⟨none, out, rd⟩ rfl hf
  · intro hf
    have hperm : (sortStr (glob w.fs (rd ++ "/*.gpx"))).Perm
        (glob w.fs (rd ++ "/*.gpx")) :=
      List.perm_insertionSort (fun a b : String => a ≤ b) _
    cases hsort : sortStr (glob w.fs (rd ++ "/*.gpx")) with
    | nil =>
        exfalso
        apply hf
        rw [hsort] at hperm
        exact (hperm.symm).eq_nil
    | cons f t =>
        refine ⟨f, ?_, ?_, ?_⟩
        · have : f ∈ sortStr (glob w.fs (rd ++ "/*.gpx")) := by
            rw [hsort]
            exact List.mem_cons_self f t
          exact (mem_sortStr f _).mp this
        · intro g2 hg2
          have hg2s : g2 ∈ sortStr (glob w.fs (rd ++ "/*.gpx")) :=
            (mem_sortStr g2 _).mpr hg2
          have hsorted := sortStr_sorted (glob w.fs (rd ++ "/*.gpx"))
          rw [hsort] at hg2s hsorted
          rcases List.mem_cons.mp hg2s with rfl | hmem
          · exact le_refl g2
          · exact (List.sorted_cons.mp hsorted).1 g2 hmem
        · have hrun := mainRun_scan dLine d2 w ⟨none, out, rd⟩ rfl hf
          rw [hsort] at hrun
          simpa using hrun

/-- World for the C8 witness: credential set, no recording anywhere. -/
def wC8 : World := ⟨[("GOOGLE_MAPS_API_KEY", "k")], [], ["template.html"]⟩

/-- C8 witness: on the empty routes directory the entry point exits 1
having only scanned the directory. -/
theorem c8_witness :
    mainRun dLine0 d20 wC8 ⟨none, "marathon_map.html", "routes"⟩ =
      (1, [Event.listDir ("routes" ++ "/*.gpx")]) :=
  (c8_default_input_selection dLine0 d20 wC8 "marathon_map.html" "routes").1
    (by decide)
